import Mathlib

/-!
Verification of the capture-and-validate pipeline of the api-contract-tester
package: a shallow embedding, in Lean 4, of the normalizer, the path matcher,
the schema-validation dispatch, the reporter and the lifecycle controller, with
theorems settling the behavioural claims made by the specification.

External collaborators (the Ajv schema evaluator, the WHATWG URL parser, the
host JSON parser and percent-decoder) are modelled as explicit function
parameters; everything else is translated from the TypeScript source.
-/

namespace ApiContract

/-- Model of a JavaScript runtime value as it flows through the pipeline:
`undefined` and `null` are distinguished, numbers are modelled as integers,
objects as ordered field lists. -/
inductive JsValue where
  | undefined
  | null
  | bool (b : Bool)
  | num (n : Int)
  | str (s : String)
  | arr (elems : List JsValue)
  | obj (fields : List (String × JsValue))
deriving Repr

-- ---------------------------------------------------------------------------
-- Character-level string primitives
--
-- The JS string operations used by the source (single-character split, trim,
-- case mapping, startsWith, single-character global replace, digit parsing)
-- are modelled on the character list underlying the Lean string, so that all
-- of them evaluate on concrete inputs.
-- ---------------------------------------------------------------------------

/-- Splitting a character list on a separator character; like JS
`s.split(sep)`, the result always has one part more than there are
separators. -/
def splitOnCharList (sep : Char) : List Char → List (List Char)
  | [] => [[]]
  | c :: cs =>
    let rest := splitOnCharList sep cs
    if c = sep then [] :: rest
    else
      match rest with
      | [] => [[c]]
      | r :: rs => (c :: r) :: rs

/-- JS `s.split(sep)` for a single-character separator. -/
def splitOnChar (sep : Char) (s : String) : List String :=
  (splitOnCharList sep s.data).map (fun l => { data := l })

/-- JS `s.toUpperCase()` (ASCII case mapping). -/
def strToUpper (s : String) : String := { data := s.data.map Char.toUpper }

/-- JS `s.toLowerCase()` (ASCII case mapping). -/
def strToLower (s : String) : String := { data := s.data.map Char.toLower }

/-- JS `s.trim()`: whitespace stripped from both ends. -/
def strTrim (s : String) : String :=
  { data := ((s.data.dropWhile Char.isWhitespace).reverse.dropWhile Char.isWhitespace).reverse }

/-- Character-list version of the startsWith test. -/
def charsPrefix : List Char → List Char → Bool
  | [], _ => true
  | _ :: _, [] => false
  | p :: ps, c :: cs => p == c && charsPrefix ps cs

/-- JS `s.startsWith(pre)`. -/
def strStartsWith (s pre : String) : Bool := charsPrefix pre.data s.data

/-- JS `s.replace(/a/g, b)` for single characters `a`, `b`. -/
def charReplace (s : String) (a b : Char) : String :=
  { data := s.data.map (fun c => if c = a then b else c) }

/-- Decimal value of an all-digit character list (`Number(seg)` on a digit
string). -/
def charsToNat (l : List Char) : Nat :=
  l.foldl (fun acc c => acc * 10 + (c.toNat - 48)) 0

/-- Property access `o[key]` on an object field list: first binding wins,
a missing property reads as `undefined`. -/
def jsGet (fields : List (String × JsValue)) (key : String) : JsValue :=
  match fields.find? (fun kv => kv.1 == key) with
  | some kv => kv.2
  | none => JsValue.undefined

/-- JavaScript truthiness of a modelled value. -/
def jsTruthy : JsValue → Bool
  | JsValue.undefined => false
  | JsValue.null => false
  | JsValue.bool b => b
  | JsValue.num n => n != 0
  | JsValue.str s => s != ""
  | JsValue.arr _ => true
  | JsValue.obj _ => true

-- ---------------------------------------------------------------------------
-- Path matching (src/validation/path-matcher.ts)
-- ---------------------------------------------------------------------------

/-- Splitting on `/` and dropping empty segments, as in
`s.split("/").filter(Boolean)`. -/
def splitSegments (s : String) : List String :=
  (splitOnChar '/' s).filter (fun seg => seg ≠ "")

/-- Translation of `matchPathPattern`: a pathname matches a pattern iff the
nonempty `/`-segments agree in count and each pattern segment is either a
`:param` segment or literally equal to the path segment. -/
def matchPathPattern (pathname pattern : String) : Bool :=
  let pathSegments := splitSegments pathname
  let patternSegments := splitSegments pattern
  if pathSegments.length ≠ patternSegments.length then false
  else (patternSegments.zip pathSegments).all
    (fun ps => strStartsWith ps.1 ":" || ps.1 == ps.2)

/-- Schemas handed to the external evaluator are untyped JSON-shaped values
(`Record<string, unknown>` in the source). -/
abbrev JsonSchema := JsValue

/-- Translation of `ContractDefinition` (src/config/types.ts). -/
structure ContractDefinition where
  method : String
  path : String
  requestSchema : Option JsonSchema := none
  requestQuerySchema : Option JsonSchema := none
  requestHeadersSchema : Option JsonSchema := none
  requestCookiesSchema : Option JsonSchema := none
  responseSchema : Option JsonSchema := none
  allowedResponseStatusCodes : Option (List Int) := none
  responseHeadersSchema : Option JsonSchema := none
  responseCookiesSchema : Option JsonSchema := none
  label : Option String := none
deriving Repr

/-- The matching test applied to each contract inside the `findContract` loop. -/
def contractMatches (c : ContractDefinition) (normalizedMethod pathname : String) : Bool :=
  strToUpper c.method == normalizedMethod && matchPathPattern pathname c.path

/-- Translation of `findContract`: first contract whose upper-cased method
equals the upper-cased request method and whose pattern matches the pathname. -/
def findContract (contracts : List ContractDefinition) (method pathname : String) :
    Option ContractDefinition :=
  contracts.find? (fun c => contractMatches c (strToUpper method) pathname)

-- ---------------------------------------------------------------------------
-- Body kind classification (src/interceptors/serializer.ts)
-- ---------------------------------------------------------------------------

/-- Coarse classification of a captured body (the `BodyKind` union type). -/
inductive BodyKind where
  | empty
  | text
  | json
  | xml
  | yaml
  | csv
  | html
  | markdown
  | form
  | multipart
  | binary
  | stream
  | graphql
  | unknown
deriving Repr, DecidableEq

/-- Translation of `getContentTypeMedia`: primary media type of a content-type
header value (trimmed, lower-cased, cut at the first semicolon); empty string
for an absent or empty header. -/
def getContentTypeMedia (contentType : Option String) : String :=
  match contentType with
  | none => ""
  | some ct => if ct == "" then "" else (splitOnChar ';' (strToLower (strTrim ct))).headD ""

/-- Translation of `inferBodyKindFromContentType`. -/
def inferBodyKindFromContentType (contentType : Option String) : BodyKind :=
  let media := getContentTypeMedia contentType
  if media == "" then BodyKind.unknown
  else if media == "application/json" || media == "application/json; charset=utf-8" then BodyKind.json
  else if media == "application/xml" || media == "text/xml" then BodyKind.xml
  else if media == "text/yaml" || media == "application/x-yaml" || media == "application/yaml" then BodyKind.yaml
  else if media == "text/csv" then BodyKind.csv
  else if media == "text/html" then BodyKind.html
  else if media == "text/markdown" || media == "text/x-markdown" then BodyKind.markdown
  else if media == "application/x-www-form-urlencoded" then BodyKind.form
  else if strStartsWith media "multipart/" then BodyKind.multipart
  else if media == "application/graphql" || media == "application/x-graphql" then BodyKind.graphql
  else if strStartsWith media "text/" then BodyKind.text
  else if strStartsWith media "image/" || strStartsWith media "audio/" || strStartsWith media "video/"
       || media == "application/pdf" || strStartsWith media "application/octet-stream" then BodyKind.binary
  else BodyKind.unknown

/-- Structural shape of a raw fetch `BodyInit` payload, as discriminated by the
serializer: a readable stream (has `getReader`), a `FormData`, a
`URLSearchParams`, a `Blob`, an `ArrayBuffer`, a typed-array view, a plain
string, or some other object. -/
inductive BodySource where
  | stream
  | formData
  | urlParams
  | blob
  | arrayBuffer
  | bufferView
  | str (s : String)
  | otherObject
deriving Repr, DecidableEq

/-- Translation of `inferRequestBodyKind`: structural type of the raw payload
first, then the declared content type, then the shape of the parsed body. -/
def inferRequestBodyKind (contentType : Option String) (bodySource : Option BodySource)
    (parsedBody : JsValue) : BodyKind :=
  match bodySource with
  | none => BodyKind.empty
  | some BodySource.stream => BodyKind.stream
  | some BodySource.formData => BodyKind.multipart
  | some BodySource.urlParams => BodyKind.form
  | some BodySource.blob => BodyKind.binary
  | some BodySource.arrayBuffer => BodyKind.binary
  | some BodySource.bufferView => BodyKind.binary
  | some _ =>
    let fromContentType := inferBodyKindFromContentType contentType
    if fromContentType ≠ BodyKind.unknown then fromContentType
    else match parsedBody with
      | JsValue.null => BodyKind.empty
      | JsValue.undefined => BodyKind.empty
      | JsValue.str _ => BodyKind.text
      | JsValue.obj fs =>
        if jsTruthy (jsGet fs "[Blob]") || jsTruthy (jsGet fs "[ArrayBuffer]")
           || jsTruthy (jsGet fs "[ArrayBufferView]") then BodyKind.binary
        else BodyKind.unknown
      | _ => BodyKind.unknown

/-- Translation of `inferResponseBodyKind`: an absent parsed body is `empty`
regardless of content type, then the declared content type, then the shape of
the parsed body (a `byteLength` presence check marks binary descriptors). -/
def inferResponseBodyKind (contentType : Option String) (parsedBody : JsValue) : BodyKind :=
  match parsedBody with
  | JsValue.null => BodyKind.empty
  | JsValue.undefined => BodyKind.empty
  | body =>
    let fromContentType := inferBodyKindFromContentType contentType
    if fromContentType ≠ BodyKind.unknown then fromContentType
    else match body with
      | JsValue.str _ => BodyKind.text
      | JsValue.obj fs =>
        if jsTruthy (jsGet fs "[Blob]") || jsTruthy (jsGet fs "[Binary]")
           || !(match jsGet fs "byteLength" with | JsValue.undefined => true | _ => false) then BodyKind.binary
        else BodyKind.unknown
      | _ => BodyKind.unknown

-- ---------------------------------------------------------------------------
-- Captured request / response snapshots (src/types/index.ts)
-- ---------------------------------------------------------------------------

/-- Translation of `ParsedUrl`. Query parameter values are strings or ordered
string sequences; they are carried as modelled JS values because the validator
feeds them to the schema evaluator unchanged. -/
structure ParsedUrl where
  protocol : String := ""
  host : String := ""
  port : String := ""
  pathname : String := "/"
  search : String := ""
  queryParams : List (String × JsValue) := []
  fragment : String := ""
deriving Repr

/-- Translation of `CapturedRequest`. -/
structure CapturedRequest where
  method : String
  url : String
  urlParts : ParsedUrl := {}
  headers : List (String × String) := []
  cookies : List (String × String) := []
  body : JsValue := JsValue.null
  bodyKind : BodyKind := BodyKind.empty
  timestamp : Int := 0
  requestId : Option String := none
deriving Repr

/-- Translation of `CapturedResponse`. -/
structure CapturedResponse where
  status : Int
  statusText : String := ""
  headers : List (String × String) := []
  cookies : List (String × String) := []
  body : JsValue := JsValue.null
  bodyKind : BodyKind := BodyKind.empty
  timestamp : Int := 0
  durationMs : Option Int := none
  requestId : Option String := none
  contentType : Option String := none
  contentLength : Option String := none
  contentEncoding : Option String := none
  cacheControl : Option String := none
  corsHeaders : Option (List (String × String)) := none
  redirectLocation : Option String := none
deriving Repr

/-- Translation of `InterceptorResponsePayload`: the post-settlement event
carrying both snapshots (the request snapshot is optional in the payload type). -/
structure InterceptorResponsePayload where
  response : CapturedResponse
  request : Option CapturedRequest := none
  timestamp : Int := 0
deriving Repr

-- ---------------------------------------------------------------------------
-- Schema validation (src/validation/schema-validator.ts)
-- ---------------------------------------------------------------------------

/-- One error object produced by the external Ajv evaluator: instance path,
message, offending data, schema fragment and keyword params. Absent fields
read as `undefined`, as they would on the JS error object. -/
structure AjvError where
  instancePath : String := ""
  message : Option String := none
  data : JsValue := JsValue.undefined
  schema : JsValue := JsValue.undefined
  params : JsValue := JsValue.undefined
deriving Repr

/-- Outcome of running the external evaluator on a schema and a value: either
the evaluation threw (schema compilation or an internal failure), or it
returned a verdict together with the error list Ajv leaves on the validator. -/
inductive EvalOutcome where
  | thrown (msg : String)
  | result (valid : Bool) (errors : Option (List AjvError))
deriving Repr

/-- The external JSON-Schema evaluator, abstracted: schema, then data. -/
def Evaluator := JsonSchema → JsValue → EvalOutcome

/-- Translation of `ValidationErrorItem` (the per-field error surfaced to the
reporter). `received`, `expectedSchema` and `params` default to `undefined`
exactly like absent optional fields on the JS object. -/
structure ValidationErrorItem where
  path : Option String := none
  message : String
  received : JsValue := JsValue.undefined
  expectedSchema : JsValue := JsValue.undefined
  params : JsValue := JsValue.undefined
deriving Repr

/-- Translation of `SchemaValidationResult`. -/
structure SchemaValidationResult where
  valid : Bool
  errors : Option (List ValidationErrorItem) := none
deriving Repr

/-- One step of the JSON-Pointer walk in `getValueAtPath`: numeric segments
index arrays, other segments read object properties; primitives, `null` and
`undefined` stop the walk with `undefined`. -/
def jsPathStep (current : JsValue) (seg : String) : JsValue :=
  match current with
  | JsValue.obj fs =>
    if seg ≠ "" ∧ seg.toList.all Char.isDigit then
      jsGet fs (toString (charsToNat seg.data))
    else jsGet fs seg
  | JsValue.arr xs =>
    if seg ≠ "" ∧ seg.toList.all Char.isDigit then
      xs.getD (charsToNat seg.data) JsValue.undefined
    else JsValue.undefined
  | _ => JsValue.undefined

/-- Translation of `getValueAtPath`: value at a JSON-Pointer instance path
(for example `/0/id`), walking from the root. -/
def getValueAtPath (root : JsValue) (instancePath : String) : JsValue :=
  if instancePath == "" || instancePath == "/" then root
  else ((splitOnChar '/' instancePath).filter (fun s => s ≠ "")).foldl jsPathStep root

/-- Mapping of one Ajv error object onto a `ValidationErrorItem`, as done in
the success-with-errors branch of `validateWithSchema`. -/
def mapAjvError (data : JsValue) (e : AjvError) : ValidationErrorItem :=
  let path := if e.instancePath == "" then none else some e.instancePath
  let received :=
    match e.data with
    | JsValue.undefined => getValueAtPath data e.instancePath
    | d => d
  { path := path
    message := e.message.getD "[object Object]"
    received := received
    expectedSchema := e.schema
    params := e.params }

/-- Translation of `validateWithSchema`: compile and run the evaluator inside a
try/catch; a throw becomes a single generic invalid result, a failed run maps
every Ajv error onto a `ValidationErrorItem`. -/
def validateWithSchema (evalSchema : Evaluator) (data : JsValue) (schema : JsonSchema) :
    SchemaValidationResult :=
  match evalSchema schema data with
  | EvalOutcome.thrown msg => { valid := false, errors := some [{ message := msg }] }
  | EvalOutcome.result true _ => { valid := true }
  | EvalOutcome.result false errs =>
    { valid := false, errors := some ((errs.getD []).map (mapAjvError data)) }

/-- Translation of `validateStatusCode`: membership in the allowed list, with
an empty list counting as valid. -/
def validateStatusCode (status : Int) (allowed : List Int) : SchemaValidationResult :=
  if allowed.length == 0 || allowed.contains status then { valid := true }
  else
    { valid := false
      errors := some [{ message := "status must be one of ["
                          ++ String.intercalate ", " (allowed.map toString)
                          ++ "], received " ++ toString status
                        received := JsValue.num status
                        params := JsValue.obj [("allowed", JsValue.arr (allowed.map JsValue.num))] }] }

-- ---------------------------------------------------------------------------
-- Contract validator dispatch (src/validation/contract-validator.ts)
-- ---------------------------------------------------------------------------

/-- Which single aspect of the exchange failed (`ContractValidationKind`). -/
inductive ContractValidationKind where
  | requestBody
  | requestQuery
  | requestHeaders
  | requestCookies
  | responseBody
  | responseStatus
  | responseHeaders
  | responseCookies
deriving Repr, DecidableEq

/-- The string tag of each validation kind, as in the source union type. -/
def kindName : ContractValidationKind → String
  | ContractValidationKind.requestBody => "request-body"
  | ContractValidationKind.requestQuery => "request-query"
  | ContractValidationKind.requestHeaders => "request-headers"
  | ContractValidationKind.requestCookies => "request-cookies"
  | ContractValidationKind.responseBody => "response-body"
  | ContractValidationKind.responseStatus => "response-status"
  | ContractValidationKind.responseHeaders => "response-headers"
  | ContractValidationKind.responseCookies => "response-cookies"

/-- Translation of `ContractValidationResult`. -/
structure ContractValidationResult where
  valid : Bool
  contract : ContractDefinition
  request : CapturedRequest
  response : CapturedResponse
  errors : Option (List ValidationErrorItem) := none
  kind : Option ContractValidationKind := none
deriving Repr

/-- Translation of `ContractValidatorConfig`. -/
structure ContractValidatorConfig where
  port : Option Int := none
  contracts : List ContractDefinition
deriving Repr

/-- The violation result object built at the top of `emitViolation`. -/
def mkViolation (contract : ContractDefinition) (request : CapturedRequest)
    (response : CapturedResponse) (kind : ContractValidationKind)
    (errors : Option (List ValidationErrorItem)) : ContractValidationResult :=
  { valid := false
    contract := contract
    request := request
    response := response
    errors := errors
    kind := some kind }

/-- A plain string record viewed as a JS object value (what `request.headers`
or `request.cookies` look like when handed to the evaluator). -/
def recordToJs (r : List (String × String)) : JsValue :=
  JsValue.obj (r.map (fun kv => (kv.1, JsValue.str kv.2)))

/-- Cutting a URL string at the first `?`, as `q === -1 ? s : s.slice(0, q)`. -/
def cutAtQuery (s : String) : String :=
  (splitOnChar '?' s).headD s

/-- Translation of `pathnameFromUrl`. The WHATWG `new URL(trimmed, base)`
constructor is external; it is abstracted as `urlParse`, returning the
pathname or `none` when the constructor would throw. -/
def pathnameFromUrl (urlParse : String → Option String) (url : String) : String :=
  if strTrim url == "" then "/"
  else
    let trimmed := strTrim url
    if strStartsWith trimmed "/" then cutAtQuery trimmed
    else
      match urlParse trimmed with
      | some p => if p == "" then "/" else p
      | none => cutAtQuery trimmed

/-- One schema-driven aspect check of the handler: skipped when the contract
declares no schema for the aspect, otherwise one violation result exactly when
the validation fails. -/
def schemaAspectPart (evalSchema : Evaluator) (data : JsValue) (schema : Option JsonSchema)
    (mk : Option (List ValidationErrorItem) → ContractValidationResult) :
    List ContractValidationResult :=
  match schema with
  | some s =>
    let r := validateWithSchema evalSchema data s
    if r.valid then [] else [mk r.errors]
  | none => []

/-- The status-code aspect check of the handler: runs only when the contract
declares a non-empty allowed list. -/
def statusAspectPart (status : Int) (allowed : Option (List Int))
    (mk : Option (List ValidationErrorItem) → ContractValidationResult) :
    List ContractValidationResult :=
  match allowed with
  | some l =>
    if l.length > 0 then
      let r := validateStatusCode status l
      if r.valid then [] else [mk r.errors]
    else []
  | none => []

/-- Translation of the validator `handler`: the ordered list of violation
results it emits for one response event. Aspects are checked unconditionally,
in source order: request body, query, headers, cookies, then response body,
status, headers, cookies. -/
def handlerViolations (evalSchema : Evaluator) (urlParse : String → Option String)
    (config : ContractValidatorConfig) (payload : InterceptorResponsePayload) :
    List ContractValidationResult :=
  match payload.request with
  | none => []
  | some request =>
    let pathname := pathnameFromUrl urlParse request.url
    match findContract config.contracts request.method pathname with
    | none => []
    | some contract =>
      let response := payload.response
      schemaAspectPart evalSchema request.body contract.requestSchema
        (mkViolation contract request response ContractValidationKind.requestBody)
      ++ schemaAspectPart evalSchema (JsValue.obj request.urlParts.queryParams) contract.requestQuerySchema
        (mkViolation contract request response ContractValidationKind.requestQuery)
      ++ schemaAspectPart evalSchema (recordToJs request.headers) contract.requestHeadersSchema
        (mkViolation contract request response ContractValidationKind.requestHeaders)
      ++ schemaAspectPart evalSchema (recordToJs request.cookies) contract.requestCookiesSchema
        (mkViolation contract request response ContractValidationKind.requestCookies)
      ++ schemaAspectPart evalSchema response.body contract.responseSchema
        (mkViolation contract request response ContractValidationKind.responseBody)
      ++ statusAspectPart response.status contract.allowedResponseStatusCodes
        (mkViolation contract request response ContractValidationKind.responseStatus)
      ++ schemaAspectPart evalSchema (recordToJs response.headers) contract.responseHeadersSchema
        (mkViolation contract request response ContractValidationKind.responseHeaders)
      ++ schemaAspectPart evalSchema (recordToJs response.cookies) contract.responseCookiesSchema
        (mkViolation contract request response ContractValidationKind.responseCookies)

-- ---------------------------------------------------------------------------
-- Reporting (src/validation/reporting.ts)
-- ---------------------------------------------------------------------------

/-- Display string for an atomic JS value, per the host `String(...)`
conversion. Arrays are handled one level deep by `jsDisplay`. -/
def jsDisplayAtom : JsValue → String
  | JsValue.undefined => "undefined"
  | JsValue.null => "null"
  | JsValue.bool b => if b then "true" else "false"
  | JsValue.num n => toString n
  | JsValue.str s => s
  | JsValue.arr _ => ""
  | JsValue.obj _ => "[object Object]"

/-- Display string for a JS value, per the host `String(...)` conversion:
arrays join their elements with commas (`null` and `undefined` elements print
as empty; nested structure is abbreviated), objects print as
`[object Object]`. -/
def jsDisplay (v : JsValue) : String :=
  match v with
  | JsValue.arr xs =>
    String.intercalate ","
      (xs.map (fun x =>
        match x with
        | JsValue.null => ""
        | JsValue.undefined => ""
        | y => jsDisplayAtom y))
  | y => jsDisplayAtom y

/-- Translation of `formatReceivedType`: display type of the received value. -/
def formatReceivedType : JsValue → String
  | JsValue.undefined => "undefined"
  | JsValue.null => "null"
  | JsValue.arr _ => "array"
  | JsValue.bool _ => "boolean"
  | JsValue.num _ => "number"
  | JsValue.str _ => "string"
  | JsValue.obj _ => "object"

/-- Nullish coalescing `a ?? b` on modelled JS values. -/
def jsCoalesce (a b : JsValue) : JsValue :=
  match a with
  | JsValue.undefined => b
  | JsValue.null => b
  | v => v

/-- Translation of `formatExpected`: the `type` field of the expected schema
fragment (falling back to the Ajv params), else `per schema`. -/
def formatExpected (e : ValidationErrorItem) : String :=
  let schema := jsCoalesce e.expectedSchema e.params
  match schema with
  | JsValue.obj fs =>
    (match jsGet fs "type" with
     | JsValue.null => "per schema"
     | JsValue.undefined => "per schema"
     | t => jsDisplay t)
  | _ => "per schema"

/-- Removal of a single leading slash, as `replace(/^\x2f/, "")`. -/
def stripLeadingSlash (s : String) : String :=
  if strStartsWith s "/" then s.drop 1 else s

/-- Translation of `formatErrorLine`: `field: expected T, received U` when a
received value exists, else `field: message`; the field path turns slashes
into dots and defaults to `body`. -/
def formatErrorLine (e : ValidationErrorItem) : String :=
  let loc :=
    match e.path with
    | some p => if p == "" then "body" else stripLeadingSlash p
    | none => "body"
  let field0 := charReplace (stripLeadingSlash loc) '/' '.'
  let field := if field0 == "" then "body" else field0
  let expected := formatExpected e
  match e.received with
  | JsValue.undefined => field ++ ": " ++ e.message
  | r => field ++ ": expected " ++ expected ++ ", received " ++ formatReceivedType r

/-- Translation of `kindLabel`: dashes become spaces; a missing kind reads as
`response`. -/
def kindLabel (kind : Option ContractValidationKind) : String :=
  match kind with
  | none => "response"
  | some k => charReplace (kindName k) '-' ' '

/-- Translation of `formatViolationSummary`: `METHOD label-or-path kind`. -/
def formatViolationSummary (result : ContractValidationResult) : String :=
  let path := result.contract.label.getD result.contract.path
  result.request.method ++ " " ++ path ++ " " ++ kindLabel result.kind

/-- Translation of `formatViolationMessage`: the summary followed by all error
lines joined with `; `. -/
def formatViolationMessage (result : ContractValidationResult) : String :=
  let prefixStr := formatViolationSummary result
  match result.errors with
  | none => prefixStr ++ ": validation failed"
  | some [] => prefixStr ++ ": validation failed"
  | some errors =>
    prefixStr ++ ": " ++ String.intercalate "; " (errors.map formatErrorLine)

/-- Translation of `logViolation`: the ordered console warnings it produces —
the one-line message, plus one indented line per error when more than one
error exists. -/
def logViolation (result : ContractValidationResult) : List String :=
  let message := formatViolationMessage result
  ("[contract-validator] " ++ message)
  :: (match result.errors with
      | some errs =>
        if errs.length > 1 then errs.map (fun e => "  - " ++ formatErrorLine e) else []
      | none => [])

-- ---------------------------------------------------------------------------
-- Violation emission (emitViolation in src/validation/contract-validator.ts)
-- ---------------------------------------------------------------------------

/-- Observable event of the emission path: the user callback being invoked, or
a console warning being printed by the reporter. -/
inductive ReportEvent where
  | callbackInvoked (result : ContractValidationResult)
  | consoleWarn (line : String)
deriving Repr

/-- A user violation callback, which may throw. -/
def ViolationCallback := ContractValidationResult → Except String Unit

/-- Translation of `emitViolation`: builds the result, invokes the optional
callback, then logs. The returned pair is the ordered event trace and the
exception propagated out of `emitViolation`, if any: the source has no
try/catch, so a throw from the callback aborts before `logViolation` runs. -/
def emitViolation (onViolation : Option ViolationCallback) (contract : ContractDefinition)
    (request : CapturedRequest) (response : CapturedResponse)
    (kind : ContractValidationKind) (errors : Option (List ValidationErrorItem)) :
    List ReportEvent × Option String :=
  let result := mkViolation contract request response kind errors
  match onViolation with
  | some cb =>
    (match cb result with
     | Except.ok _ =>
       (ReportEvent.callbackInvoked result :: (logViolation result).map ReportEvent.consoleWarn, none)
     | Except.error e => ([ReportEvent.callbackInvoked result], some e))
  | none => ((logViolation result).map ReportEvent.consoleWarn, none)

-- ---------------------------------------------------------------------------
-- Response serialization (src/interceptors/serializer.ts)
-- ---------------------------------------------------------------------------

/-- Host percent-decoding of cookie names and values. No verified claim
depends on the decoding itself, so it is modelled as the identity. -/
def decodeURIComponent (s : String) : String := s

/-- First-match lookup in a plain string record. -/
def recordGet (r : List (String × String)) (key : String) : Option String :=
  (r.find? (fun kv => kv.1 == key)).map (fun kv => kv.2)

/-- Insert-or-overwrite in a plain string record, keeping first-insertion
order as JS object assignment does. -/
def recordSet (r : List (String × String)) (key val : String) : List (String × String) :=
  if (r.find? (fun kv => kv.1 == key)).isSome then
    r.map (fun kv => if kv.1 == key then (kv.1, val) else kv)
  else r ++ [(key, val)]

/-- The `Object.fromEntries(headers.entries())` collapse in `headersToRecord`:
later duplicate names overwrite earlier values. -/
def headersToRecord (headers : List (String × String)) : List (String × String) :=
  headers.foldl (fun acc kv => recordSet acc kv.1 kv.2) []

/-- Index of the first occurrence of `=`, per `s.indexOf("=")`. -/
def indexOfEq (s : String) : Option Nat :=
  match splitOnChar '=' s with
  | [] => none
  | [_] => none
  | pre :: _ => some pre.length

/-- One `set-cookie` entry parsed to a name/value pair, as in
`getResponseCookiesFromHeaders` (name before the first `=`, value up to the
first `;`); entries without `=` are skipped. -/
def parseSetCookieEntry (s : String) : Option (String × String) :=
  match indexOfEq s with
  | none => none
  | some eq =>
    let name := strTrim ((strTrim s).take eq)
    let val := strTrim ((splitOnChar ';' ((strTrim s).drop (eq + 1))).headD "")
    if name == "" then none else some (decodeURIComponent name, decodeURIComponent val)

/-- Translation of `getResponseCookiesFromHeaders` on a headers list exposing
`getSetCookie()`: every `set-cookie` entry parsed independently, merged with
last-write-wins per name. -/
def getResponseCookiesFromHeaders (headers : List (String × String)) : List (String × String) :=
  let setCookies := (headers.filter (fun kv => strToLower kv.1 == "set-cookie")).map (fun kv => kv.2)
  setCookies.foldl
    (fun acc s =>
      match parseSetCookieEntry s with
      | some nv => recordSet acc nv.1 nv.2
      | none => acc)
    []

/-- Nullish coalescing on optional strings, as in
`headers["content-type"] ?? headers["Content-Type"]`. -/
def jsCoalesceStr (a b : Option String) : Option String :=
  match a with
  | some v => some v
  | none => b

/-- The `value || undefined` falsiness collapse used for the derived response
fields: an empty string reads as absent. -/
def emptyToNone (s : Option String) : Option String :=
  match s with
  | some v => if v == "" then none else some v
  | none => none

/-- Loose JSON content-type test, per `isJsonContentType`. -/
def isJsonContentType (contentType : Option String) : Bool :=
  match contentType with
  | none => false
  | some ct => strStartsWith (strToLower (strTrim ct)) "application/json"

/-- Model of a host `Response` object: the transport-visible fields plus the
one-shot body stream, whose consumption is the only mutable state. -/
structure JsResponse where
  status : Int
  statusText : String := ""
  headers : List (String × String) := []
  bodyText : String := ""
  bodyUsed : Bool := false
deriving Repr, DecidableEq

/-- Reading the body as text: consumes the stream; throws when it was already
consumed. Returns the outcome together with the response object state
afterwards. -/
def responseTextRead (r : JsResponse) : Except String String × JsResponse :=
  if r.bodyUsed then (Except.error "body stream already read", { r with bodyUsed := true })
  else (Except.ok r.bodyText, { r with bodyUsed := true })

/-- Reading the body as parsed JSON (`.json()`): consumes the stream, then
parses; an unparsable body still leaves the stream consumed. -/
def responseJsonRead (jsonParse : String → Option JsValue) (r : JsResponse) :
    Except String JsValue × JsResponse :=
  match responseTextRead r with
  | (Except.ok t, r2) =>
    (match jsonParse t with
     | some v => (Except.ok v, r2)
     | none => (Except.error "unexpected token in JSON", r2))
  | (Except.error e, r2) => (Except.error e, r2)

/-- Reading the body as a byte buffer (`.arrayBuffer()`): consumes the stream;
the model measures bytes as the UTF-8 length of the body text. -/
def responseBufRead (r : JsResponse) : Except String Nat × JsResponse :=
  match responseTextRead r with
  | (Except.ok t, r2) => (Except.ok t.utf8ByteSize, r2)
  | (Except.error e, r2) => (Except.error e, r2)

/-- Translation of `serializeResponse`, with the body-consumption state made
explicit: the function clones the response first and every body read targets
the clone, so the second component — the state of the original response object
after capture — is returned untouched. `clone()` itself throws when the
original body was already consumed. `jsonParse` abstracts the host JSON
parser, `now` the capture clock. -/
def serializeResponse (jsonParse : String → Option JsValue) (now : Int)
    (requestStartTime : Option Int) (response : JsResponse) :
    Except String CapturedResponse × JsResponse :=
  if response.bodyUsed then
    (Except.error "cannot clone: body stream already read", response)
  else
    let cloned : JsResponse := { response with }
    let headers := headersToRecord response.headers
    let timestamp := now
    let durationMs := requestStartTime.map (fun t0 => timestamp - t0)
    let contentType := jsCoalesceStr (recordGet headers "content-type") (recordGet headers "Content-Type")
    let contentLength := jsCoalesceStr (recordGet headers "content-length") (recordGet headers "Content-Length")
    let contentEncoding := jsCoalesceStr (recordGet headers "content-encoding") (recordGet headers "Content-Encoding")
    let cacheControl := jsCoalesceStr (recordGet headers "cache-control") (recordGet headers "Cache-Control")
    let location := jsCoalesceStr (recordGet headers "location") (recordGet headers "Location")
    let corsHeaders := headers.filter (fun kv => strStartsWith (strToLower kv.1) "access-control-")
    let cookies := getResponseCookiesFromHeaders response.headers
    let media := getContentTypeMedia contentType
    let isBinaryResponse :=
      strStartsWith media "image/" || strStartsWith media "audio/" || strStartsWith media "video/"
      || media == "application/pdf" || media == "application/octet-stream"
    let body : JsValue :=
      if isBinaryResponse then
        match responseBufRead cloned with
        | (Except.ok size, _) =>
          JsValue.obj [("[Binary]", JsValue.bool true), ("contentType", JsValue.str media),
                       ("size", JsValue.num (Int.ofNat size))]
        | (Except.error _, _) => JsValue.null
      else if isJsonContentType contentType then
        match responseJsonRead jsonParse cloned with
        | (Except.ok v, _) => v
        | (Except.error _, cloned2) =>
          match responseTextRead cloned2 with
          | (Except.ok t, _) => JsValue.str t
          | (Except.error _, _) => JsValue.null
      else
        match responseTextRead cloned with
        | (Except.ok t, _) => JsValue.str t
        | (Except.error _, _) => JsValue.null
    let bodyKind := inferResponseBodyKind contentType body
    (Except.ok
      { status := response.status
        statusText := response.statusText
        headers := headers
        cookies := cookies
        body := body
        bodyKind := bodyKind
        timestamp := timestamp
        durationMs := durationMs
        contentType := contentType
        contentLength := contentLength
        contentEncoding := emptyToNone contentEncoding
        cacheControl := emptyToNone cacheControl
        corsHeaders := if corsHeaders.length ≠ 0 then some corsHeaders else none
        redirectLocation := emptyToNone location },
     response)

/-- The success continuation of `FetchInterceptor._wrapFetch`: the response is
serialized for capture, and the value handed back to the application is the
`response` binding itself — in the explicit-state model, the state of the
original object after `serializeResponse` threaded it through. -/
def wrapFetchSuccess (jsonParse : String → Option JsValue) (now : Int)
    (requestStartTime : Option Int) (response : JsResponse) :
    JsResponse × Except String CapturedResponse :=
  let sr := serializeResponse jsonParse now requestStartTime response
  (sr.2, sr.1)

-- ---------------------------------------------------------------------------
-- Lifecycle controller (src/register.ts and FetchInterceptor install state)
-- ---------------------------------------------------------------------------

/-- The value of the global `fetch` slot: the true transport function, or the
wrapper installed by the interceptor of registration `regId`. -/
inductive FetchVal where
  | original
  | wrapper (regId : Nat)
deriving Repr, DecidableEq

/-- Mutable state of one `FetchInterceptor` instance: the captured reference
to the previous `fetch`, the installed flag, and the response-event listener
set (identified by the id of the validator whose handler is subscribed). -/
structure InterceptorSt where
  originalFetch : Option FetchVal := none
  installed : Bool := false
  listeners : List Nat := []
deriving Repr, DecidableEq

/-- Mutable state of one contract validator: the interceptor it is attached
to, if any (`interceptorRef`; `handlerRef` is set and cleared with it). -/
structure ValidatorSt where
  interceptorRef : Option Nat := none
deriving Repr, DecidableEq

/-- Process-wide state of the lifecycle: the global `fetch` slot, the state of
every interceptor and validator instance created so far (registration `k`
creates instance `k`), the module-level `currentCleanup` slot (holding the id
of the registration whose cleanup closure it stores), and the id counter for
the next registration. -/
structure SysState where
  fetch : FetchVal
  itc : Nat → InterceptorSt
  vld : Nat → ValidatorSt
  currentCleanup : Option Nat
  nextReg : Nat

/-- Pointwise update of an instance table. -/
def setAt {α : Type} (f : Nat → α) (k : Nat) (v : α) : Nat → α :=
  fun j => if j = k then v else f j

/-- Translation of `FetchInterceptor.install` for instance `k`: idempotent;
captures the current global `fetch` and replaces it with the wrapper. -/
def installI (k : Nat) (s : SysState) : SysState :=
  if (s.itc k).installed then s
  else
    { s with
      itc := setAt s.itc k { s.itc k with originalFetch := some s.fetch, installed := true }
      fetch := FetchVal.wrapper k }

/-- Translation of `FetchInterceptor.uninstall` for instance `k`: idempotent;
restores the captured `fetch` and drops the reference. -/
def uninstallI (k : Nat) (s : SysState) : SysState :=
  match (s.itc k).installed, (s.itc k).originalFetch with
  | true, some orig =>
    { s with
      fetch := orig
      itc := setAt s.itc k { s.itc k with originalFetch := none, installed := false } }
  | _, _ => s

/-- Translation of validator `attach` for instance `k`: a no-op when already
attached, otherwise records the interceptor and subscribes the handler. -/
def attachV (k : Nat) (s : SysState) : SysState :=
  match (s.vld k).interceptorRef with
  | some _ => s
  | none =>
    { s with
      vld := setAt s.vld k { interceptorRef := some k }
      itc := setAt s.itc k
        { s.itc k with
          listeners :=
            if k ∈ (s.itc k).listeners then (s.itc k).listeners
            else (s.itc k).listeners ++ [k] } }

/-- Translation of validator `detach` for instance `k`: unsubscribes the
handler from the recorded interceptor and clears the references. -/
def detachV (k : Nat) (s : SysState) : SysState :=
  match (s.vld k).interceptorRef with
  | some j =>
    { s with
      itc := setAt s.itc j { s.itc j with listeners := (s.itc j).listeners.filter (fun x => x ≠ k) }
      vld := setAt s.vld k { interceptorRef := none } }
  | none => s

/-- Translation of the `cleanup` closure created by registration `k`: it
returns early when the module slot is empty, otherwise detaches validator `k`,
uninstalls interceptor `k`, and clears the slot — the guard compares the slot
against `null`, not against this closure's own registration. -/
def cleanupClosure (k : Nat) (s : SysState) : SysState :=
  match s.currentCleanup with
  | none => s
  | some _ =>
    let s1 := detachV k s
    let s2 := uninstallI k s1
    { s2 with currentCleanup := none }

/-- Thrown configuration errors of `register`. -/
inductive JsError where
  | typeError (msg : String)
deriving Repr, DecidableEq

/-- Translation of `isValidConfig`: a non-null object whose `contracts`
property is an array. -/
def isValidConfig (config : JsValue) : Bool :=
  match config with
  | JsValue.obj fs =>
    (match jsGet fs "contracts" with
     | JsValue.arr _ => true
     | _ => false)
  | _ => false

/-- The `contracts` array of a config value, when the config is valid. -/
def contractsField (config : JsValue) : Option (List JsValue) :=
  match config with
  | JsValue.obj fs =>
    (match jsGet fs "contracts" with
     | JsValue.arr l => some l
     | _ => none)
  | _ => none

/-- Translation of `register`: validates the config (throwing a `TypeError`
before touching any state), tears down the previous registration through the
stored cleanup, then creates, installs and attaches a fresh
interceptor/validator pair and stores the new cleanup. Returns the handle id
(the cleanup closure of that registration) alongside the new state. -/
def register (config : JsValue) (s : SysState) : Except JsError Nat × SysState :=
  if !(isValidConfig config) then
    (Except.error (JsError.typeError
      "[api-contract-tester] register(config): config must be an object with a \x27contracts\x27 array (e.g. from defineContractConfig)."), s)
  else if ((contractsField config).getD []).length == 0 then
    (Except.error (JsError.typeError
      "[api-contract-tester] register(config): config.contracts must not be empty."), s)
  else
    let s0 :=
      match s.currentCleanup with
      | some j => { cleanupClosure j s with currentCleanup := none }
      | none => s
    let k := s0.nextReg
    let s1 := { s0 with itc := setAt s0.itc k {}, vld := setAt s0.vld k {} }
    let s2 := installI k s1
    let s3 := attachV k s2
    (Except.ok k, { s3 with currentCleanup := some k, nextReg := k + 1 })

/-- Translation of the module-level `unregister`: runs the stored cleanup, if
any, and clears the slot. -/
def unregister (s : SysState) : SysState :=
  match s.currentCleanup with
  | some j => { cleanupClosure j s with currentCleanup := none }
  | none => s

/-- The build half of `register` after teardown: create a fresh
interceptor/validator pair, install, attach, and store the new cleanup. -/
def buildPipeline (t : SysState) : SysState :=
  let k := t.nextReg
  let s1 := { t with itc := setAt t.itc k {}, vld := setAt t.vld k {} }
  let s2 := installI k s1
  let s3 := attachV k s2
  { s3 with currentCleanup := some k, nextReg := k + 1 }

/-- The pristine state: no registration ever occurred, `fetch` unwrapped. -/
def initState : SysState :=
  { fetch := FetchVal.original
    itc := fun _ => {}
    vld := fun _ => {}
    currentCleanup := none
    nextReg := 0 }

/-- One call of the public module API. -/
inductive LifeOp where
  | registerOp (config : JsValue)
  | unregisterOp

/-- State transition of one public API call (the thrown error of an invalid
`register` leaves the state as it was). -/
def lifeStep (s : SysState) (op : LifeOp) : SysState :=
  match op with
  | LifeOp.registerOp c => (register c s).2
  | LifeOp.unregisterOp => unregister s

/-- State after a sequence of `register`/`unregister` calls from scratch. -/
def runOps (ops : List LifeOp) : SysState :=
  ops.foldl lifeStep initState

/-- The transport entry point is wrapped exactly once: either `fetch` is the
original and no interceptor is installed, or it is one wrapper directly over
the original, every other interceptor being uninstalled. -/
def WrappedExactlyOnce (s : SysState) : Prop :=
  (s.fetch = FetchVal.original ∧ ∀ j, (s.itc j).installed = false) ∨
  (∃ k, s.fetch = FetchVal.wrapper k ∧ (s.itc k).originalFetch = some FetchVal.original ∧
        (s.itc k).installed = true ∧ ∀ j, j ≠ k → (s.itc j).installed = false)

/-- Lifecycle invariant tying the module slot to the pipeline states: the slot
holds `k` exactly when pipeline `k` is the single installed-and-attached one,
wrapping the original `fetch`; an empty slot means an unwrapped entry point. -/
structure LifecycleInv (s : SysState) : Prop where
  slot_lt : ∀ k, s.currentCleanup = some k → k < s.nextReg
  active_fetch : ∀ k, s.currentCleanup = some k → s.fetch = FetchVal.wrapper k
  active_orig : ∀ k, s.currentCleanup = some k → (s.itc k).originalFetch = some FetchVal.original
  active_installed : ∀ k, s.currentCleanup = some k → (s.itc k).installed = true
  active_ref : ∀ k, s.currentCleanup = some k → (s.vld k).interceptorRef = some k
  active_listeners : ∀ k, s.currentCleanup = some k → (s.itc k).listeners = [k]
  idle_fetch : s.currentCleanup = none → s.fetch = FetchVal.original
  others_uninstalled : ∀ j, s.currentCleanup ≠ some j → (s.itc j).installed = false
  others_detached : ∀ j, s.currentCleanup ≠ some j → (s.vld j).interceptorRef = none
  others_listeners : ∀ j, s.currentCleanup ≠ some j → (s.itc j).listeners = []

/-- A minimal well-formed contract config value (one contract object). -/
def cfgOne : JsValue :=
  JsValue.obj [("contracts", JsValue.arr [JsValue.obj [("method", JsValue.str "GET"), ("path", JsValue.str "/api/users")]])]

/-- A second well-formed contract config value. -/
def cfgTwo : JsValue :=
  JsValue.obj [("contracts", JsValue.arr [JsValue.obj [("method", JsValue.str "POST"), ("path", JsValue.str "/api/users")]])]

-- ---------------------------------------------------------------------------
-- Statement-level helpers and concrete fixtures
-- ---------------------------------------------------------------------------

/-- The eight validated aspects, in the order the handler checks them. -/
def allKinds : List ContractValidationKind :=
  [ContractValidationKind.requestBody, ContractValidationKind.requestQuery,
   ContractValidationKind.requestHeaders, ContractValidationKind.requestCookies,
   ContractValidationKind.responseBody, ContractValidationKind.responseStatus,
   ContractValidationKind.responseHeaders, ContractValidationKind.responseCookies]

/-- The schema the contract declares for a given aspect (the status aspect is
driven by the allowed-status list instead). -/
def aspectSchema (c : ContractDefinition) : ContractValidationKind → Option JsonSchema
  | ContractValidationKind.requestBody => c.requestSchema
  | ContractValidationKind.requestQuery => c.requestQuerySchema
  | ContractValidationKind.requestHeaders => c.requestHeadersSchema
  | ContractValidationKind.requestCookies => c.requestCookiesSchema
  | ContractValidationKind.responseBody => c.responseSchema
  | ContractValidationKind.responseStatus => none
  | ContractValidationKind.responseHeaders => c.responseHeadersSchema
  | ContractValidationKind.responseCookies => c.responseCookiesSchema

/-- The captured value each aspect check feeds to the evaluator. -/
def aspectData (request : CapturedRequest) (response : CapturedResponse) :
    ContractValidationKind → JsValue
  | ContractValidationKind.requestBody => request.body
  | ContractValidationKind.requestQuery => JsValue.obj request.urlParts.queryParams
  | ContractValidationKind.requestHeaders => recordToJs request.headers
  | ContractValidationKind.requestCookies => recordToJs request.cookies
  | ContractValidationKind.responseBody => response.body
  | ContractValidationKind.responseStatus => JsValue.undefined
  | ContractValidationKind.responseHeaders => recordToJs response.headers
  | ContractValidationKind.responseCookies => recordToJs response.cookies

/-- Whether a given aspect of the exchange fails against the contract: the
aspect is declared (a schema, or a non-empty allowed-status list) and its
check comes back invalid. -/
def aspectFails (evalSchema : Evaluator) (c : ContractDefinition) (request : CapturedRequest)
    (response : CapturedResponse) (k : ContractValidationKind) : Bool :=
  match k with
  | ContractValidationKind.responseStatus =>
    (match c.allowedResponseStatusCodes with
     | some l => decide (0 < l.length) && !(validateStatusCode response.status l).valid
     | none => false)
  | _ =>
    (match aspectSchema c k with
     | some s => !(validateWithSchema evalSchema (aspectData request response k) s).valid
     | none => false)

/-- The error list carried by the violation of a given aspect. -/
def aspectErrors (evalSchema : Evaluator) (c : ContractDefinition) (request : CapturedRequest)
    (response : CapturedResponse) (k : ContractValidationKind) :
    Option (List ValidationErrorItem) :=
  match k with
  | ContractValidationKind.responseStatus =>
    (validateStatusCode response.status ((c.allowedResponseStatusCodes).getD [])).errors
  | _ =>
    (match aspectSchema c k with
     | some s => (validateWithSchema evalSchema (aspectData request response k) s).errors
     | none => none)

/-- An idle lifecycle state: nothing registered, nothing wrapped, nothing
attached. -/
def IdleState (s : SysState) : Prop :=
  s.fetch = FetchVal.original ∧ s.currentCleanup = none ∧
  (∀ j, (s.itc j).installed = false) ∧ (∀ j, (s.vld j).interceptorRef = none) ∧
  (∀ j, (s.itc j).listeners = [])

/-- A schema requiring an integer, as a raw schema value. -/
def intSchema : JsonSchema := JsValue.obj [("type", JsValue.str "integer")]

/-- A schema whose compilation the demo evaluator rejects. -/
def badRefSchema : JsonSchema := JsValue.obj [("$ref", JsValue.str "#/definitions/missing")]

/-- A concrete evaluator used to instantiate the theorems: it understands the
integer schema, throws on the dangling reference schema, and accepts anything
else. -/
def demoEvaluator : Evaluator := fun schema data =>
  match schema with
  | JsValue.obj [("type", JsValue.str "integer")] =>
    (match data with
     | JsValue.num _ => EvalOutcome.result true none
     | _ =>
       EvalOutcome.result false
         (some [{ instancePath := "", message := some "must be integer",
                  params := JsValue.obj [("type", JsValue.str "integer")] }]))
  | JsValue.obj [("$ref", JsValue.str "#/definitions/missing")] =>
    EvalOutcome.thrown "cannot resolve reference #/definitions/missing"
  | _ => EvalOutcome.result true none

/-- A URL parser stub for the fixtures (their URLs are root-relative, so the
WHATWG constructor path is never taken). -/
def demoUrlParse : String → Option String := fun _ => none

/-- Fixture contract: `GET /api/users`, integer response body, allowed
statuses 200 and 201. -/
def demoContract : ContractDefinition :=
  { method := "GET", path := "/api/users", responseSchema := some intSchema,
    allowedResponseStatusCodes := some [200, 201] }

/-- Fixture contract whose request-body schema makes the evaluator throw. -/
def demoThrowContract : ContractDefinition :=
  { method := "GET", path := "/api/users", requestSchema := some badRefSchema,
    allowedResponseStatusCodes := some [200] }

/-- Fixture captured request for `GET /api/users`. -/
def demoRequest : CapturedRequest := { method := "GET", url := "/api/users" }

/-- Fixture captured response: status 404, string body. -/
def demoResponse : CapturedResponse := { status := 404, body := JsValue.str "oops" }

/-- Fixture response payload pairing the two snapshots. -/
def demoPayload : InterceptorResponsePayload :=
  { response := demoResponse, request := some demoRequest }

/-- Fixture validator config holding the single fixture contract. -/
def demoCfg : ContractValidatorConfig := { contracts := [demoContract] }

/-- Fixture validator config holding the throwing-schema contract. -/
def demoThrowCfg : ContractValidatorConfig := { contracts := [demoThrowContract] }

/-- A violation callback that always throws. -/
def throwingCallback : ViolationCallback := fun _ => Except.error "callback boom"

/-- A violation callback that returns normally. -/
def okCallback : ViolationCallback := fun _ => Except.ok ()

/-- Whether a report event is a console warning. -/
def isWarnEvent : ReportEvent → Bool
  | ReportEvent.consoleWarn _ => true
  | ReportEvent.callbackInvoked _ => false

-- =========================================================================
-- Theorems
-- =========================================================================

theorem serializeResponse_state (jsonParse : String → Option JsValue) (now : Int)
    (t0 : Option Int) (r : JsResponse) : (serializeResponse jsonParse now t0 r).2 = r := by
  unfold serializeResponse
  split <;> rfl

/-- C1: capture is non-destructive — `serializeResponse` reads the body only
from a clone, so the state of the original response object is unchanged by
capture; the fetch wrapper hands that original object back to the caller, and
reading the body afterwards yields exactly what it would have without
capture. -/
theorem capture_is_nondestructive :
    ∀ (jsonParse : String → Option JsValue) (now : Int) (t0 : Option Int) (r : JsResponse),
      (serializeResponse jsonParse now t0 r).2 = r ∧
      (wrapFetchSuccess jsonParse now t0 r).1 = r ∧
      responseTextRead ((wrapFetchSuccess jsonParse now t0 r).1) = responseTextRead r := by
  intro jsonParse now t0 r
  have h : (serializeResponse jsonParse now t0 r).2 = r :=
    serializeResponse_state jsonParse now t0 r
  have hw : (wrapFetchSuccess jsonParse now t0 r).1 = r := h
  exact ⟨h, hw, by rw [hw]⟩

theorem zipAll_startsWith_iff (Q P : List String) :
    ((Q.zip P).all (fun ps => strStartsWith ps.1 ":" || ps.1 == ps.2) = true) ↔
      (∀ i (h1 : i < Q.length) (h2 : i < P.length),
        strStartsWith (Q.get ⟨i, h1⟩) ":" = true ∨ Q.get ⟨i, h1⟩ = P.get ⟨i, h2⟩) := by
  rw [List.all_eq_true]
  constructor
  · intro h i h1 h2
    have hz : i < (Q.zip P).length := by rw [List.length_zip]; omega
    have hmem : (Q.get ⟨i, h1⟩, P.get ⟨i, h2⟩) ∈ Q.zip P := by
      have hg : (Q.zip P).get ⟨i, hz⟩ = (Q.get ⟨i, h1⟩, P.get ⟨i, h2⟩) := by
        simp [List.get_eq_getElem, List.getElem_zip]
      have hm := List.get_mem (Q.zip P) i hz
      rw [hg] at hm
      exact hm
    have hf := h _ hmem
    simp only [Bool.or_eq_true, beq_iff_eq] at hf
    exact hf
  · intro h x hx
    obtain ⟨n, rfl⟩ := List.mem_iff_get.mp hx
    have h1 : (n : Nat) < Q.length :=
      lt_of_lt_of_le n.isLt (by rw [List.length_zip]; exact min_le_left _ _)
    have h2 : (n : Nat) < P.length :=
      lt_of_lt_of_le n.isLt (by rw [List.length_zip]; exact min_le_right _ _)
    have hg : (Q.zip P).get n = (Q.get ⟨n, h1⟩, P.get ⟨n, h2⟩) := by
      simp [List.get_eq_getElem, List.getElem_zip]
    rw [hg]
    have hh := h n h1 h2
    simp only [Bool.or_eq_true, beq_iff_eq]
    exact hh

theorem matchPathPattern_iff (pathname pattern : String) :
    matchPathPattern pathname pattern = true ↔
      ((splitSegments pathname).length = (splitSegments pattern).length ∧
        ∀ i (h1 : i < (splitSegments pattern).length) (h2 : i < (splitSegments pathname).length),
          strStartsWith ((splitSegments pattern).get ⟨i, h1⟩) ":" = true ∨
          (splitSegments pattern).get ⟨i, h1⟩ = (splitSegments pathname).get ⟨i, h2⟩) := by
  unfold matchPathPattern
  by_cases hlen : (splitSegments pathname).length = (splitSegments pattern).length
  · rw [if_neg (by omega)]
    rw [zipAll_startsWith_iff]
    constructor
    · intro h; exact ⟨hlen, h⟩
    · intro h; exact h.2
  · rw [if_pos hlen]
    constructor
    · intro h; exact absurd h (by simp)
    · intro h; exact absurd h.1 hlen

/-- C4: `findContract` returns the first contract in registration order whose
method matches case-insensitively (upper-casing both sides) and whose pattern
matches the pathname, or none when no contract matches; a pathname matches a
pattern iff the nonempty slash-segments agree in count and, at every index,
the pattern segment is a `:param` segment or is literally equal (case
sensitively) to the path segment. In particular `/api/users/:id` matches
`/api/users/42` but not `/api/users/42/posts`, and of two matching contracts
the first registered is always returned. -/
theorem findContract_first_structural_match :
    (∀ pathname pattern, matchPathPattern pathname pattern = true ↔
      ((splitSegments pathname).length = (splitSegments pattern).length ∧
        ∀ i (h1 : i < (splitSegments pattern).length) (h2 : i < (splitSegments pathname).length),
          strStartsWith ((splitSegments pattern).get ⟨i, h1⟩) ":" = true ∨
          (splitSegments pattern).get ⟨i, h1⟩ = (splitSegments pathname).get ⟨i, h2⟩))
  ∧ (∀ (c : ContractDefinition) (m p : String), contractMatches c (strToUpper m) p =
      ((strToUpper c.method == strToUpper m) && matchPathPattern p c.path))
  ∧ (∀ (m p : String), findContract [] m p = none)
  ∧ (∀ (A : ContractDefinition) (rest : List ContractDefinition) (m p : String),
      contractMatches A (strToUpper m) p = true →
      findContract (A :: rest) m p = some A)
  ∧ (∀ (A : ContractDefinition) (rest : List ContractDefinition) (m p : String),
      contractMatches A (strToUpper m) p = false →
      findContract (A :: rest) m p = findContract rest m p)
  ∧ (∀ (A B : ContractDefinition) (m p : String),
      contractMatches A (strToUpper m) p = true → contractMatches B (strToUpper m) p = true →
      findContract [A, B] m p = some A)
  ∧ matchPathPattern "/api/users/42" "/api/users/:id" = true
  ∧ matchPathPattern "/api/users/42/posts" "/api/users/:id" = false := by
  refine ⟨matchPathPattern_iff, ?_, ?_, ?_, ?_, ?_, ?_, ?_⟩
  · intro c m p; rfl
  · intro m p; rfl
  · intro A rest m p h
    exact List.find?_cons_of_pos rest h
  · intro A rest m p h
    exact List.find?_cons_of_neg rest (by simp [h])
  · intro A B m p hA _hB
    exact List.find?_cons_of_pos [B] hA
  · decide
  · decide

/-- Witness instantiating C4: a concrete two-contract registry where both
contracts match `GET /api/users/42` and the first is returned. -/
theorem findContract_first_structural_match_witness :
    contractMatches { method := "get", path := "/api/users/:id" } (strToUpper "GET") "/api/users/42" = true ∧
    contractMatches { method := "GET", path := "/api/users/42" } (strToUpper "GET") "/api/users/42" = true ∧
    findContract [{ method := "get", path := "/api/users/:id" },
                  { method := "GET", path := "/api/users/42" }] "GET" "/api/users/42" =
      some { method := "get", path := "/api/users/:id" } :=
  ⟨by decide, by decide,
   findContract_first_structural_match.2.2.2.2.2.1
     { method := "get", path := "/api/users/:id" }
     { method := "GET", path := "/api/users/42" }
     "GET" "/api/users/42" (by decide) (by decide)⟩

/-- C9: body-kind classification priority — an absent raw payload is always
`empty`; the structural type of the raw payload (stream, form-data,
url-encoded form, binary buffer) overrides the declared content type; next the
content-type's primary media type decides; next the shape of the parsed body
(string gives text, a binary-marker object gives binary, anything else
unknown); for responses an absent parsed body is `empty` regardless of content
type, then the same content-type/shape order applies. -/
theorem bodyKind_priority :
    (∀ ct parsed, inferRequestBodyKind ct none parsed = BodyKind.empty)
  ∧ (∀ ct parsed, inferRequestBodyKind ct (some BodySource.stream) parsed = BodyKind.stream)
  ∧ (∀ ct parsed, inferRequestBodyKind ct (some BodySource.formData) parsed = BodyKind.multipart)
  ∧ (∀ ct parsed, inferRequestBodyKind ct (some BodySource.urlParams) parsed = BodyKind.form)
  ∧ (∀ ct parsed,
      inferRequestBodyKind ct (some BodySource.blob) parsed = BodyKind.binary ∧
      inferRequestBodyKind ct (some BodySource.arrayBuffer) parsed = BodyKind.binary ∧
      inferRequestBodyKind ct (some BodySource.bufferView) parsed = BodyKind.binary)
  ∧ (∀ ct s parsed, inferBodyKindFromContentType ct ≠ BodyKind.unknown →
      inferRequestBodyKind ct (some (BodySource.str s)) parsed = inferBodyKindFromContentType ct)
  ∧ (∀ ct s t, inferBodyKindFromContentType ct = BodyKind.unknown →
      inferRequestBodyKind ct (some (BodySource.str s)) (JsValue.str t) = BodyKind.text)
  ∧ (∀ ct s fs, inferBodyKindFromContentType ct = BodyKind.unknown →
      (jsTruthy (jsGet fs "[Blob]") || jsTruthy (jsGet fs "[ArrayBuffer]")
        || jsTruthy (jsGet fs "[ArrayBufferView]")) = true →
      inferRequestBodyKind ct (some (BodySource.str s)) (JsValue.obj fs) = BodyKind.binary)
  ∧ (∀ ct s fs, inferBodyKindFromContentType ct = BodyKind.unknown →
      (jsTruthy (jsGet fs "[Blob]") || jsTruthy (jsGet fs "[ArrayBuffer]")
        || jsTruthy (jsGet fs "[ArrayBufferView]")) = false →
      inferRequestBodyKind ct (some (BodySource.str s)) (JsValue.obj fs) = BodyKind.unknown)
  ∧ (∀ ct, inferResponseBodyKind ct JsValue.null = BodyKind.empty ∧
      inferResponseBodyKind ct JsValue.undefined = BodyKind.empty)
  ∧ (∀ ct t, inferBodyKindFromContentType ct ≠ BodyKind.unknown →
      inferResponseBodyKind ct (JsValue.str t) = inferBodyKindFromContentType ct)
  ∧ (∀ ct fs, inferBodyKindFromContentType ct ≠ BodyKind.unknown →
      inferResponseBodyKind ct (JsValue.obj fs) = inferBodyKindFromContentType ct)
  ∧ (∀ ct t, inferBodyKindFromContentType ct = BodyKind.unknown →
      inferResponseBodyKind ct (JsValue.str t) = BodyKind.text)
  ∧ (∀ ct fs, inferBodyKindFromContentType ct = BodyKind.unknown →
      (jsTruthy (jsGet fs "[Blob]") || jsTruthy (jsGet fs "[Binary]")
        || !(match jsGet fs "byteLength" with | JsValue.undefined => true | _ => false)) = true →
      inferResponseBodyKind ct (JsValue.obj fs) = BodyKind.binary) := by
  refine ⟨fun ct parsed => rfl, fun ct parsed => rfl, fun ct parsed => rfl, fun ct parsed => rfl,
          fun ct parsed => ⟨rfl, rfl, rfl⟩, ?_, ?_, ?_, ?_, fun ct => ⟨rfl, rfl⟩, ?_, ?_, ?_, ?_⟩
  · intro ct s parsed h
    simp only [inferRequestBodyKind]
    rw [if_pos h]
  · intro ct s t h
    simp only [inferRequestBodyKind]
    rw [if_neg (by simp [h])]
  · intro ct s fs h hmark
    simp only [inferRequestBodyKind]
    rw [if_neg (by simp [h])]
    simp only [hmark, if_true]
  · intro ct s fs h hmark
    simp only [inferRequestBodyKind]
    rw [if_neg (by simp [h])]
    simp [hmark]
  · intro ct t h
    simp only [inferResponseBodyKind]
    rw [if_pos h]
  · intro ct fs h
    simp only [inferResponseBodyKind]
    rw [if_pos h]
  · intro ct t h
    simp only [inferResponseBodyKind]
    rw [if_neg (by simp [h])]
  · intro ct fs h hmark
    simp only [inferResponseBodyKind]
    rw [if_neg (by simp [h])]
    simp only [hmark, if_true]

/-- Witness instantiating C9: concrete classifications — a JSON content type
classifies a string request payload as json, a stream payload as stream
regardless of content type, and a 404-style empty response as empty. -/
theorem bodyKind_priority_witness :
    inferBodyKindFromContentType (some "application/json") ≠ BodyKind.unknown ∧
    inferRequestBodyKind (some "application/json") (some (BodySource.str "x")) (JsValue.obj []) =
      inferBodyKindFromContentType (some "application/json") ∧
    inferRequestBodyKind (some "application/json") (some BodySource.stream) JsValue.null = BodyKind.stream ∧
    inferBodyKindFromContentType (some "application/test-media") = BodyKind.unknown ∧
    inferRequestBodyKind (some "application/test-media") (some (BodySource.str "x")) (JsValue.str "x") = BodyKind.text :=
  ⟨by decide,
   bodyKind_priority.2.2.2.2.2.1 (some "application/json") "x" (JsValue.obj []) (by decide),
   bodyKind_priority.2.1 (some "application/json") JsValue.null,
   by decide,
   bodyKind_priority.2.2.2.2.2.2.1 (some "application/test-media") "x" "x" (by decide)⟩

theorem schemaAspectPart_eq (evalSchema : Evaluator) (data : JsValue) (schema : Option JsonSchema)
    (mk : Option (List ValidationErrorItem) → ContractValidationResult) :
    schemaAspectPart evalSchema data schema mk =
      if (match schema with
          | some s => !(validateWithSchema evalSchema data s).valid
          | none => false)
      then [mk (match schema with
                | some s => (validateWithSchema evalSchema data s).errors
                | none => none)]
      else [] := by
  cases schema with
  | none => rfl
  | some s =>
    simp only [schemaAspectPart]
    cases h : (validateWithSchema evalSchema data s).valid <;> simp [h]

theorem statusAspectPart_eq (status : Int) (allowed : Option (List Int))
    (mk : Option (List ValidationErrorItem) → ContractValidationResult) :
    statusAspectPart status allowed mk =
      if (match allowed with
          | some l => decide (0 < l.length) && !(validateStatusCode status l).valid
          | none => false)
      then [mk (validateStatusCode status (allowed.getD [])).errors]
      else [] := by
  cases allowed with
  | none => rfl
  | some l =>
    simp only [statusAspectPart, Option.getD]
    by_cases hl : 0 < l.length
    · rw [if_pos hl]
      cases h : (validateStatusCode status l).valid <;> simp [h, hl]
    · rw [if_neg hl]
      simp [hl]

theorem join_ite_filter_map {α β : Type} (p : α → Bool) (g : α → β) :
    ∀ ks : List α, (ks.map (fun k => if p k then [g k] else [])).flatten = (ks.filter p).map g := by
  intro ks
  induction ks with
  | nil => rfl
  | cons a l ih =>
    cases h : p a <;> simp [List.filter_cons, h, ih]

theorem mem_allKinds (k : ContractValidationKind) : k ∈ allKinds := by
  cases k <;> simp [allKinds]

theorem handlerViolations_decomp (evalSchema : Evaluator) (urlParse : String → Option String)
    (config : ContractValidatorConfig) (payload : InterceptorResponsePayload)
    (request : CapturedRequest) (contract : ContractDefinition)
    (hreq : payload.request = some request)
    (hc : findContract config.contracts request.method (pathnameFromUrl urlParse request.url) = some contract) :
    handlerViolations evalSchema urlParse config payload =
      (allKinds.filter (aspectFails evalSchema contract request payload.response)).map
        (fun k => mkViolation contract request payload.response k
          (aspectErrors evalSchema contract request payload.response k)) := by
  rw [← join_ite_filter_map]
  simp only [handlerViolations, hreq, hc]
  simp only [allKinds, List.map_cons, List.map_nil, List.flatten]
  rw [schemaAspectPart_eq, schemaAspectPart_eq, schemaAspectPart_eq, schemaAspectPart_eq,
      schemaAspectPart_eq, schemaAspectPart_eq, schemaAspectPart_eq, statusAspectPart_eq]
  simp only [aspectFails, aspectErrors, aspectSchema, aspectData, List.flatten_cons,
             List.flatten_nil, List.append_nil, List.append_assoc]

theorem handler_kind_mem (evalSchema : Evaluator) (urlParse : String → Option String)
    (config : ContractValidatorConfig) (payload : InterceptorResponsePayload)
    (request : CapturedRequest) (contract : ContractDefinition)
    (hreq : payload.request = some request)
    (hc : findContract config.contracts request.method (pathnameFromUrl urlParse request.url) = some contract)
    (k : ContractValidationKind) :
    (∃ r ∈ handlerViolations evalSchema urlParse config payload, r.kind = some k) ↔
      aspectFails evalSchema contract request payload.response k = true := by
  rw [handlerViolations_decomp evalSchema urlParse config payload request contract hreq hc]
  constructor
  · rintro ⟨r, hr, hk⟩
    obtain ⟨k2, hk2mem, rfl⟩ := List.mem_map.mp hr
    have hkk : k2 = k := by simpa [mkViolation] using hk
    subst hkk
    exact (List.mem_filter.mp hk2mem).2
  · intro h
    refine ⟨mkViolation contract request payload.response k
        (aspectErrors evalSchema contract request payload.response k), ?_, rfl⟩
    exact List.mem_map.mpr ⟨k, List.mem_filter.mpr ⟨mem_allKinds k, h⟩, rfl⟩

theorem aspectFails_of_no_schema (evalSchema : Evaluator) (contract : ContractDefinition)
    (request : CapturedRequest) (response : CapturedResponse) (k : ContractValidationKind)
    (hk : k ≠ ContractValidationKind.responseStatus) (h : aspectSchema contract k = none) :
    aspectFails evalSchema contract request response k = false := by
  cases k <;> simp_all [aspectFails, aspectSchema]

/-- C5: for every exchange matched to a contract, the handler produces exactly
one violation result per failing aspect among the eight, in check order:
the kinds of the emitted results are precisely the aspects that fail; aspects
with no declared schema never contribute a result; every result is a distinct
invalid record carrying the matched contract and both snapshots. -/
theorem handler_one_violation_per_failing_aspect
    (evalSchema : Evaluator) (urlParse : String → Option String)
    (config : ContractValidatorConfig) (payload : InterceptorResponsePayload)
    (request : CapturedRequest) (contract : ContractDefinition)
    (hreq : payload.request = some request)
    (hc : findContract config.contracts request.method (pathnameFromUrl urlParse request.url) = some contract) :
    ((handlerViolations evalSchema urlParse config payload).map (fun r => r.kind)
      = (allKinds.filter (aspectFails evalSchema contract request payload.response)).map some)
  ∧ (∀ r ∈ handlerViolations evalSchema urlParse config payload,
      r.valid = false ∧ r.contract = contract ∧ r.request = request ∧ r.response = payload.response)
  ∧ (∀ k, k ≠ ContractValidationKind.responseStatus → aspectSchema contract k = none →
      ∀ r ∈ handlerViolations evalSchema urlParse config payload, r.kind ≠ some k) := by
  have hd := handlerViolations_decomp evalSchema urlParse config payload request contract hreq hc
  refine ⟨?_, ?_, ?_⟩
  · rw [hd, List.map_map]
    simp [Function.comp, mkViolation]
  · intro r hr
    rw [hd] at hr
    obtain ⟨k2, _, rfl⟩ := List.mem_map.mp hr
    simp [mkViolation]
  · intro k hk hnone r hr hkind
    rw [hd] at hr
    obtain ⟨k2, hk2mem, rfl⟩ := List.mem_map.mp hr
    have hkk : k2 = k := by simpa [mkViolation] using hkind
    have hfail := (List.mem_filter.mp hk2mem).2
    rw [hkk, aspectFails_of_no_schema evalSchema contract request payload.response k hk hnone] at hfail
    exact Bool.false_ne_true hfail

/-- Witness instantiating C5: the fixture exchange fails both the response
body check and the status check, yielding exactly two distinct results of
those two kinds, in order. -/
theorem handler_one_violation_per_failing_aspect_witness :
    (handlerViolations demoEvaluator demoUrlParse demoCfg demoPayload).map (fun r => r.kind)
      = [some ContractValidationKind.responseBody, some ContractValidationKind.responseStatus] :=
  ((handler_one_violation_per_failing_aspect demoEvaluator demoUrlParse demoCfg demoPayload
      demoRequest demoContract rfl rfl).1).trans (by decide)

theorem validateStatusCode_valid (s : Int) (l : List Int) :
    (validateStatusCode s l).valid = (l.length == 0 || l.contains s) := by
  unfold validateStatusCode
  cases h : (l.length == 0 || l.contains s) <;> simp [h]

/-- C6: a response-status violation is produced iff the matched contract
declares a non-empty allowed status list and the response status is not in
it; an empty or absent list never produces one; and the status verdict itself
is plain set membership. -/
theorem status_violation_iff_not_allowed
    (evalSchema : Evaluator) (urlParse : String → Option String)
    (config : ContractValidatorConfig) (payload : InterceptorResponsePayload)
    (request : CapturedRequest) (contract : ContractDefinition)
    (hreq : payload.request = some request)
    (hc : findContract config.contracts request.method (pathnameFromUrl urlParse request.url) = some contract) :
    ((∃ r ∈ handlerViolations evalSchema urlParse config payload,
        r.kind = some ContractValidationKind.responseStatus) ↔
      (∃ l, contract.allowedResponseStatusCodes = some l ∧ l ≠ [] ∧
        payload.response.status ∉ l))
  ∧ (∀ l : List Int, (validateStatusCode payload.response.status l).valid =
      (l.length == 0 || l.contains payload.response.status)) := by
  refine ⟨?_, fun l => validateStatusCode_valid _ l⟩
  rw [handler_kind_mem evalSchema urlParse config payload request contract hreq hc]
  simp only [aspectFails]
  cases hall : contract.allowedResponseStatusCodes with
  | none => simp
  | some l =>
    simp only [validateStatusCode_valid, Option.some.injEq]
    constructor
    · intro h
      rw [Bool.and_eq_true, decide_eq_true_eq, Bool.not_eq_true', Bool.or_eq_false_iff] at h
      obtain ⟨hlen, -, hcon⟩ := h
      refine ⟨l, rfl, ?_, ?_⟩
      · intro hnil; subst hnil; simp at hlen
      · intro hmem
        simp [hmem] at hcon
    · rintro ⟨l2, rfl, hne, hnmem⟩
      rw [Bool.and_eq_true, decide_eq_true_eq, Bool.not_eq_true', Bool.or_eq_false_iff]
      have h0 : l.length ≠ 0 := fun h => hne (List.length_eq_zero.mp h)
      exact ⟨List.length_pos.mpr hne, by simpa using h0, by simp [hnmem]⟩

/-- Witness instantiating C6: a contract allowing statuses 200 and 201 with
an exchange returning 404 produces a response-status violation. -/
theorem status_violation_iff_not_allowed_witness :
    ∃ r ∈ handlerViolations demoEvaluator demoUrlParse demoCfg demoPayload,
      r.kind = some ContractValidationKind.responseStatus :=
  ((status_violation_iff_not_allowed demoEvaluator demoUrlParse demoCfg demoPayload
      demoRequest demoContract rfl rfl).1).mpr ⟨[200, 201], rfl, by decide, by decide⟩

/-- C7: the schema check is total — a thrown evaluator failure is converted
into an invalid result carrying exactly one generic error item (a message
only) and is never propagated; in the handler, a throwing request-body schema
still yields its single generic request-body violation while every other
aspect check runs exactly as it otherwise would. -/
theorem validateWithSchema_total
    : (∀ (evalSchema : Evaluator) (data : JsValue) (schema : JsonSchema) (msg : String),
        evalSchema schema data = EvalOutcome.thrown msg →
        validateWithSchema evalSchema data schema =
          { valid := false, errors := some [{ message := msg }] })
  ∧ (∀ (evalSchema : Evaluator) (urlParse : String → Option String)
       (config : ContractValidatorConfig) (payload : InterceptorResponsePayload)
       (request : CapturedRequest) (contract : ContractDefinition) (s : JsonSchema) (msg : String),
       payload.request = some request →
       findContract config.contracts request.method (pathnameFromUrl urlParse request.url) = some contract →
       contract.requestSchema = some s →
       evalSchema s request.body = EvalOutcome.thrown msg →
       (∃ r ∈ handlerViolations evalSchema urlParse config payload,
          r.kind = some ContractValidationKind.requestBody ∧
          r.errors = some [{ message := msg }]) ∧
       (∀ k, k ≠ ContractValidationKind.requestBody →
          ((∃ r ∈ handlerViolations evalSchema urlParse config payload, r.kind = some k) ↔
            aspectFails evalSchema contract request payload.response k = true))) := by
  have hthr : ∀ (evalSchema : Evaluator) (data : JsValue) (schema : JsonSchema) (msg : String),
      evalSchema schema data = EvalOutcome.thrown msg →
      validateWithSchema evalSchema data schema =
        { valid := false, errors := some [{ message := msg }] } := by
    intro evalSchema data schema msg h
    unfold validateWithSchema
    rw [h]
  refine ⟨hthr, ?_⟩
  intro evalSchema urlParse config payload request contract s msg hreq hc hs hev
  have hd := handlerViolations_decomp evalSchema urlParse config payload request contract hreq hc
  have hv := hthr evalSchema request.body s msg hev
  have hfail : aspectFails evalSchema contract request payload.response
      ContractValidationKind.requestBody = true := by
    simp [aspectFails, aspectSchema, aspectData, hs, hv]
  refine ⟨?_, ?_⟩
  · refine ⟨mkViolation contract request payload.response ContractValidationKind.requestBody
        (aspectErrors evalSchema contract request payload.response ContractValidationKind.requestBody),
      ?_, ?_⟩
    · rw [hd]
      exact List.mem_map.mpr ⟨ContractValidationKind.requestBody,
        List.mem_filter.mpr ⟨mem_allKinds _, hfail⟩, rfl⟩
    · constructor
      · rfl
      · simp [mkViolation, aspectErrors, aspectSchema, aspectData, hs, hv]
  · intro k _
    exact handler_kind_mem evalSchema urlParse config payload request contract hreq hc k

/-- Witness instantiating C7: the fixture evaluator throws on the dangling
reference schema; the result is the single generic invalid item, and the
handler still reports the failing status aspect of the same exchange. -/
theorem validateWithSchema_total_witness :
    validateWithSchema demoEvaluator (JsValue.null) badRefSchema =
      { valid := false, errors := some [{ message := "cannot resolve reference #/definitions/missing" }] } ∧
    ∃ r ∈ handlerViolations demoEvaluator demoUrlParse demoThrowCfg demoPayload,
      r.kind = some ContractValidationKind.requestBody ∧
      r.errors = some [{ message := "cannot resolve reference #/definitions/missing" }] :=
  ⟨validateWithSchema_total.1 demoEvaluator JsValue.null badRefSchema
      "cannot resolve reference #/definitions/missing" rfl,
   (validateWithSchema_total.2 demoEvaluator demoUrlParse demoThrowCfg demoPayload
      demoRequest demoThrowContract badRefSchema "cannot resolve reference #/definitions/missing"
      rfl rfl rfl rfl).1⟩

/-- C3 counterexample: at a concrete violation with a throwing user callback,
`emitViolation` propagates the exception and produces no console warning at
all — the reporter logging of that same violation is suppressed, contrary to
the claim. -/
theorem callback_throw_suppresses_logging :
    (emitViolation (some throwingCallback) demoContract demoRequest demoResponse
        ContractValidationKind.responseBody (some [{ message := "m" }])).2 = some "callback boom"
  ∧ ((emitViolation (some throwingCallback) demoContract demoRequest demoResponse
        ContractValidationKind.responseBody (some [{ message := "m" }])).1.filter isWarnEvent) = [] := by
  exact ⟨rfl, rfl⟩

/-- C3 amended: for every produced violation the user callback (when
registered) is invoked first, and the reporter logging follows when the
callback returns normally (and always runs when no callback is registered);
but an exception thrown inside the callback propagates out of `emitViolation`
and suppresses the reporter logging of that same violation. -/
theorem emitViolation_callback_first_then_log :
    (∀ (cb : ViolationCallback) (contract : ContractDefinition) (request : CapturedRequest)
       (response : CapturedResponse) (kind : ContractValidationKind)
       (errors : Option (List ValidationErrorItem)),
       cb (mkViolation contract request response kind errors) = Except.ok () →
       emitViolation (some cb) contract request response kind errors =
         (ReportEvent.callbackInvoked (mkViolation contract request response kind errors)
            :: (logViolation (mkViolation contract request response kind errors)).map ReportEvent.consoleWarn,
          none))
  ∧ (∀ (contract : ContractDefinition) (request : CapturedRequest)
       (response : CapturedResponse) (kind : ContractValidationKind)
       (errors : Option (List ValidationErrorItem)),
       emitViolation none contract request response kind errors =
         ((logViolation (mkViolation contract request response kind errors)).map ReportEvent.consoleWarn,
          none))
  ∧ (∀ (cb : ViolationCallback) (contract : ContractDefinition) (request : CapturedRequest)
       (response : CapturedResponse) (kind : ContractValidationKind)
       (errors : Option (List ValidationErrorItem)) (e : String),
       cb (mkViolation contract request response kind errors) = Except.error e →
       emitViolation (some cb) contract request response kind errors =
         ([ReportEvent.callbackInvoked (mkViolation contract request response kind errors)], some e)) := by
  refine ⟨?_, ?_, ?_⟩
  · intro cb contract request response kind errors h
    simp only [emitViolation, h]
  · intro contract request response kind errors
    rfl
  · intro cb contract request response kind errors e h
    simp only [emitViolation, h]

/-- Witness instantiating the amended C3: a callback that returns normally is
invoked first and the reporter warning lines follow. -/
theorem emitViolation_callback_first_then_log_witness :
    emitViolation (some okCallback) demoContract demoRequest demoResponse
        ContractValidationKind.responseBody (some [{ message := "m" }]) =
      (ReportEvent.callbackInvoked
          (mkViolation demoContract demoRequest demoResponse
            ContractValidationKind.responseBody (some [{ message := "m" }]))
        :: (logViolation (mkViolation demoContract demoRequest demoResponse
              ContractValidationKind.responseBody (some [{ message := "m" }]))).map ReportEvent.consoleWarn,
       none) :=
  emitViolation_callback_first_then_log.1 okCallback demoContract demoRequest demoResponse
    ContractValidationKind.responseBody (some [{ message := "m" }]) rfl

theorem setAt_same {α : Type} {f : Nat → α} {k : Nat} {v : α} : setAt f k v k = v := by
  simp [setAt]

theorem setAt_ne {α : Type} {f : Nat → α} {j k : Nat} {v : α} (h : j ≠ k) :
    setAt f k v j = f j := by
  simp [setAt, h]

theorem some_ne_of_ne {j k : Nat} (h : j ≠ k) : (some k : Option Nat) ≠ some j :=
  fun heq => h (Option.some.inj heq).symm

theorem detachV_nextReg (k : Nat) (s : SysState) : (detachV k s).nextReg = s.nextReg := by
  unfold detachV; split <;> rfl

theorem uninstallI_nextReg (k : Nat) (s : SysState) : (uninstallI k s).nextReg = s.nextReg := by
  unfold uninstallI; split <;> rfl

theorem cleanupClosure_nextReg (k : Nat) (s : SysState) :
    (cleanupClosure k s).nextReg = s.nextReg := by
  unfold cleanupClosure
  split
  · rfl
  · simp [uninstallI_nextReg, detachV_nextReg]

theorem unregister_nextReg (s : SysState) : (unregister s).nextReg = s.nextReg := by
  unfold unregister
  split
  · simp [cleanupClosure_nextReg]
  · rfl

theorem idle_to_inv (s : SysState) (h : IdleState s) : LifecycleInv s := by
  obtain ⟨hf, hslot, hinst, href, hlis⟩ := h
  have hno : ∀ k, s.currentCleanup = some k → False := by
    intro k hk; rw [hslot] at hk; exact Option.noConfusion hk
  exact ⟨fun k hk => (hno k hk).elim, fun k hk => (hno k hk).elim, fun k hk => (hno k hk).elim,
         fun k hk => (hno k hk).elim, fun k hk => (hno k hk).elim, fun k hk => (hno k hk).elim,
         fun _ => hf, fun j _ => hinst j, fun j _ => href j, fun j _ => hlis j⟩

theorem unregister_idle (s : SysState) (inv : LifecycleInv s) : IdleState (unregister s) := by
  unfold unregister
  cases hslot : s.currentCleanup with
  | none =>
    exact ⟨inv.idle_fetch hslot, hslot,
           fun j => inv.others_uninstalled j (by rw [hslot]; exact fun h => Option.noConfusion h),
           fun j => inv.others_detached j (by rw [hslot]; exact fun h => Option.noConfusion h),
           fun j => inv.others_listeners j (by rw [hslot]; exact fun h => Option.noConfusion h)⟩
  | some j =>
    have href := inv.active_ref j hslot
    have hinst := inv.active_installed j hslot
    have horig := inv.active_orig j hslot
    have hlis := inv.active_listeners j hslot
    have hD : detachV j s =
        { s with
          itc := setAt s.itc j
            { s.itc j with listeners := (s.itc j).listeners.filter (fun x => x ≠ j) }
          vld := setAt s.vld j { interceptorRef := none } } := by
      unfold detachV; rw [href]
    have hDi : ((detachV j s).itc j).installed = true := by
      rw [hD]; simpa [setAt_same] using hinst
    have hDo : ((detachV j s).itc j).originalFetch = some FetchVal.original := by
      rw [hD]; simpa [setAt_same] using horig
    have hDl : ((detachV j s).itc j).listeners = [] := by
      rw [hD]; simp [setAt_same, hlis]
    have hU : uninstallI j (detachV j s) =
        { detachV j s with
          fetch := FetchVal.original
          itc := setAt (detachV j s).itc j
            { (detachV j s).itc j with originalFetch := none, installed := false } } := by
      unfold uninstallI; rw [hDi, hDo]
    have hCl : cleanupClosure j s = { uninstallI j (detachV j s) with currentCleanup := none } := by
      unfold cleanupClosure; rw [hslot]
    refine ⟨?_, rfl, ?_, ?_, ?_⟩
    · show ({ cleanupClosure j s with currentCleanup := none }).fetch = FetchVal.original
      rw [hCl, hU]
    · intro i
      show (({ cleanupClosure j s with currentCleanup := none }).itc i).installed = false
      by_cases hij : i = j
      · subst hij
        rw [hCl, hU]
        simp [setAt_same]
      · rw [hCl, hU, hD]
        simp only [setAt_same, setAt_ne hij]
        exact inv.others_uninstalled i (by rw [hslot]; exact some_ne_of_ne hij)
    · intro i
      show (({ cleanupClosure j s with currentCleanup := none }).vld i).interceptorRef = none
      by_cases hij : i = j
      · subst hij
        rw [hCl, hU, hD]
        simp [setAt_same]
      · rw [hCl, hU, hD]
        simp only [setAt_same, setAt_ne hij]
        exact inv.others_detached i (by rw [hslot]; exact some_ne_of_ne hij)
    · intro i
      show (({ cleanupClosure j s with currentCleanup := none }).itc i).listeners = []
      by_cases hij : i = j
      · subst hij
        rw [hCl, hU]
        simp [setAt_same, hDl]
      · rw [hCl, hU, hD]
        simp only [setAt_same, setAt_ne hij]
        exact inv.others_listeners i (by rw [hslot]; exact some_ne_of_ne hij)

theorem buildPipeline_fetch (t : SysState) :
    (buildPipeline t).fetch = FetchVal.wrapper t.nextReg := by
  simp [buildPipeline, installI, attachV, setAt]

theorem buildPipeline_slot (t : SysState) :
    (buildPipeline t).currentCleanup = some t.nextReg := rfl

theorem buildPipeline_nextReg (t : SysState) :
    (buildPipeline t).nextReg = t.nextReg + 1 := rfl

theorem buildPipeline_itc (t : SysState) (i : Nat) :
    (buildPipeline t).itc i =
      if i = t.nextReg
      then { originalFetch := some t.fetch, installed := true, listeners := [t.nextReg] }
      else t.itc i := by
  by_cases hij : i = t.nextReg
  · subst hij
    simp [buildPipeline, installI, attachV, setAt]
  · simp [buildPipeline, installI, attachV, setAt, hij]

theorem buildPipeline_vld (t : SysState) (i : Nat) :
    (buildPipeline t).vld i =
      if i = t.nextReg
      then { interceptorRef := some t.nextReg }
      else t.vld i := by
  by_cases hij : i = t.nextReg
  · subst hij
    simp [buildPipeline, installI, attachV, setAt]
  · simp [buildPipeline, installI, attachV, setAt, hij]

theorem buildPipeline_inv (t : SysState) (ht : IdleState t) : LifecycleInv (buildPipeline t) := by
  obtain ⟨hf, hslot, hinst, href, hlis⟩ := ht
  have hkk : ∀ k, (buildPipeline t).currentCleanup = some k → k = t.nextReg := by
    intro k hk
    rw [buildPipeline_slot] at hk
    exact (Option.some.inj hk).symm
  refine ⟨?_, ?_, ?_, ?_, ?_, ?_, ?_, ?_, ?_, ?_⟩
  · intro k hk; rw [hkk k hk, buildPipeline_nextReg]; exact Nat.lt_succ_self _
  · intro k hk; rw [hkk k hk, buildPipeline_fetch]
  · intro k hk; rw [hkk k hk, buildPipeline_itc]; simp [hf]
  · intro k hk; rw [hkk k hk, buildPipeline_itc]; simp
  · intro k hk; rw [hkk k hk, buildPipeline_vld]; simp
  · intro k hk; rw [hkk k hk, buildPipeline_itc]; simp
  · intro hk; rw [buildPipeline_slot] at hk; exact Option.noConfusion hk
  · intro i hi
    have hij : i ≠ t.nextReg := fun h => hi (by rw [buildPipeline_slot, h])
    rw [buildPipeline_itc, if_neg hij]
    exact hinst i
  · intro i hi
    have hij : i ≠ t.nextReg := fun h => hi (by rw [buildPipeline_slot, h])
    rw [buildPipeline_vld, if_neg hij]
    exact href i
  · intro i hi
    have hij : i ≠ t.nextReg := fun h => hi (by rw [buildPipeline_slot, h])
    rw [buildPipeline_itc, if_neg hij]
    exact hlis i

theorem register_valid_eq (c : JsValue) (s : SysState)
    (h1 : isValidConfig c = true)
    (h2 : (((contractsField c).getD []).length == 0) = false) :
    register c s = (Except.ok (unregister s).nextReg, buildPipeline (unregister s)) := by
  unfold register
  rw [if_neg (by simp [h1]), if_neg (by simp [h2])]
  rfl

theorem register_inv (c : JsValue) (s : SysState) (inv : LifecycleInv s) :
    LifecycleInv (register c s).2 := by
  by_cases h1 : isValidConfig c = true
  · by_cases h2 : (((contractsField c).getD []).length == 0) = true
    · have hs : (register c s).2 = s := by
        unfold register
        rw [if_neg (by simp [h1]), if_pos h2]
      rw [hs]; exact inv
    · have h2f : (((contractsField c).getD []).length == 0) = false :=
        Bool.eq_false_iff.mpr h2
      rw [register_valid_eq c s h1 h2f]
      exact buildPipeline_inv _ (unregister_idle s inv)
  · have h1f : isValidConfig c = false := Bool.eq_false_iff.mpr h1
    have hs : (register c s).2 = s := by
      unfold register
      rw [if_pos (by simp [h1f])]
    rw [hs]; exact inv

theorem initState_idle : IdleState initState :=
  ⟨rfl, rfl, fun _ => rfl, fun _ => rfl, fun _ => rfl⟩

theorem runOps_inv (ops : List LifeOp) : LifecycleInv (runOps ops) := by
  unfold runOps
  have h : ∀ s, LifecycleInv s → LifecycleInv (ops.foldl lifeStep s) := by
    induction ops with
    | nil => intro s hs; exact hs
    | cons op rest ih =>
      intro s hs
      apply ih
      cases op with
      | registerOp c => exact register_inv c s hs
      | unregisterOp => exact idle_to_inv _ (unregister_idle s hs)
  exact h initState (idle_to_inv _ initState_idle)

theorem inv_wrappedOnce (s : SysState) (inv : LifecycleInv s) : WrappedExactlyOnce s := by
  cases hslot : s.currentCleanup with
  | none =>
    exact Or.inl ⟨inv.idle_fetch hslot,
      fun j => inv.others_uninstalled j (by rw [hslot]; exact fun h => Option.noConfusion h)⟩
  | some k =>
    exact Or.inr ⟨k, inv.active_fetch k hslot, inv.active_orig k hslot,
      inv.active_installed k hslot,
      fun j hj => inv.others_uninstalled j (by rw [hslot]; exact some_ne_of_ne hj)⟩

/-- C2: over every sequence of `register`/`unregister` calls, the transport
entry point is wrapped exactly once at any time (one wrapper directly over the
original `fetch`, all other interceptors uninstalled); a `register` call made
while a previous registration is active tears that registration fully down
(its interceptor uninstalled and its validator detached) and installs the new
wrapper directly over the original `fetch`, never over the old wrapper;
`unregister` is idempotent and a no-op when nothing is registered. -/
theorem at_most_one_active_pipeline :
    (∀ ops : List LifeOp, WrappedExactlyOnce (runOps ops))
  ∧ (∀ (ops : List LifeOp) (c : JsValue) (k : Nat),
      (runOps ops).currentCleanup = some k →
      ∀ (k2 : Nat) (s2 : SysState), register c (runOps ops) = (Except.ok k2, s2) →
        (s2.itc k).installed = false ∧ (s2.vld k).interceptorRef = none ∧
        s2.fetch = FetchVal.wrapper k2 ∧ (s2.itc k2).originalFetch = some FetchVal.original ∧
        (s2.itc k2).installed = true ∧ (s2.vld k2).interceptorRef = some k2 ∧ k2 ≠ k)
  ∧ (∀ s : SysState, unregister (unregister s) = unregister s)
  ∧ (∀ s : SysState, s.currentCleanup = none → unregister s = s) := by
  refine ⟨?_, ?_, ?_, ?_⟩
  · intro ops
    exact inv_wrappedOnce _ (runOps_inv ops)
  · intro ops c k hk k2 s2 hpair
    have inv := runOps_inv ops
    by_cases h1 : isValidConfig c = true
    · by_cases h2 : (((contractsField c).getD []).length == 0) = true
      · exfalso
        have herr : (register c (runOps ops)).1 = Except.error (JsError.typeError
            "[api-contract-tester] register(config): config.contracts must not be empty.") := by
          unfold register
          rw [if_neg (by simp [h1]), if_pos h2]
        rw [hpair] at herr
        exact Except.noConfusion herr
      · have h2f : (((contractsField c).getD []).length == 0) = false :=
          Bool.eq_false_iff.mpr h2
        have heq := register_valid_eq c (runOps ops) h1 h2f
        rw [heq] at hpair
        have hk2 : k2 = (unregister (runOps ops)).nextReg := by
          have hfst := congrArg Prod.fst hpair
          simpa using hfst.symm
        have hs2 : s2 = buildPipeline (unregister (runOps ops)) := by
          have hsnd := congrArg Prod.snd hpair
          simpa using hsnd.symm
        obtain ⟨hf, hslot2, hinst, href, hlis⟩ := unregister_idle (runOps ops) inv
        have hklt : k < (runOps ops).nextReg := inv.slot_lt k hk
        have hkne : k ≠ (unregister (runOps ops)).nextReg := by
          rw [unregister_nextReg]
          omega
        subst hk2
        subst hs2
        refine ⟨?_, ?_, ?_, ?_, ?_, ?_, ?_⟩
        · rw [buildPipeline_itc, if_neg hkne]
          exact hinst k
        · rw [buildPipeline_vld, if_neg hkne]
          exact href k
        · rw [buildPipeline_fetch]
        · rw [buildPipeline_itc, if_pos rfl, hf]
        · rw [buildPipeline_itc, if_pos rfl]
        · rw [buildPipeline_vld, if_pos rfl]
        · exact fun h => hkne h.symm
    · exfalso
      have h1f : isValidConfig c = false := Bool.eq_false_iff.mpr h1
      have herr : (register c (runOps ops)).1 = Except.error (JsError.typeError
          "[api-contract-tester] register(config): config must be an object with a \x27contracts\x27 array (e.g. from defineContractConfig).") := by
        unfold register
        rw [if_pos (by simp [h1f])]
      rw [hpair] at herr
      exact Except.noConfusion herr
  · intro s
    cases hslot : s.currentCleanup with
    | none =>
      have h1 : unregister s = s := by unfold unregister; rw [hslot]
      rw [h1]
      exact h1
    | some j =>
      have h1 : unregister s = { cleanupClosure j s with currentCleanup := none } := by
        unfold unregister; rw [hslot]
      rw [h1]
      rfl
  · intro s h
    unfold unregister
    rw [h]

/-- Witness instantiating C2: a first registration is active; a second
register tears it down and wraps the original exactly once. -/
theorem at_most_one_active_pipeline_witness :
    ((register cfgTwo (runOps [LifeOp.registerOp cfgOne])).2.itc 0).installed = false ∧
    ((register cfgTwo (runOps [LifeOp.registerOp cfgOne])).2.vld 0).interceptorRef = none ∧
    (register cfgTwo (runOps [LifeOp.registerOp cfgOne])).2.fetch = FetchVal.wrapper 1 ∧
    ((register cfgTwo (runOps [LifeOp.registerOp cfgOne])).2.itc 1).originalFetch = some FetchVal.original ∧
    ((register cfgTwo (runOps [LifeOp.registerOp cfgOne])).2.itc 1).installed = true ∧
    ((register cfgTwo (runOps [LifeOp.registerOp cfgOne])).2.vld 1).interceptorRef = some 1 ∧
    (1 : Nat) ≠ 0 :=
  at_most_one_active_pipeline.2.1 [LifeOp.registerOp cfgOne] cfgTwo 0 rfl 1
    (register cfgTwo (runOps [LifeOp.registerOp cfgOne])).2 rfl

/-- C8: `register` fails fast on configuration errors — an invalid config
value or an empty contracts array makes it throw a `TypeError` synchronously,
and the process state (the `fetch` slot, every interceptor and validator, and
the current registration) is left exactly as it was. -/
theorem register_fails_fast :
    ∀ (config : JsValue) (s : SysState),
      (isValidConfig config = false ∨ contractsField config = some []) →
      (∃ msg, (register config s).1 = Except.error (JsError.typeError msg)) ∧
      (register config s).2 = s := by
  intro config s h
  by_cases h1 : isValidConfig config = true
  · have h2 : (((contractsField config).getD []).length == 0) = true := by
      cases h with
      | inl hbad => rw [hbad] at h1; exact absurd h1 (by simp)
      | inr hempty => rw [hempty]; rfl
    have herr : (register config s).1 = Except.error (JsError.typeError
        "[api-contract-tester] register(config): config.contracts must not be empty.") := by
      unfold register
      rw [if_neg (by simp [h1]), if_pos h2]
    refine ⟨⟨_, herr⟩, ?_⟩
    unfold register
    rw [if_neg (by simp [h1]), if_pos h2]
  · have h1f : isValidConfig config = false := Bool.eq_false_iff.mpr h1
    have herr : (register config s).1 = Except.error (JsError.typeError
        "[api-contract-tester] register(config): config must be an object with a \x27contracts\x27 array (e.g. from defineContractConfig).") := by
      unfold register
      rw [if_pos (by simp [h1f])]
    refine ⟨⟨_, herr⟩, ?_⟩
    unfold register
    rw [if_pos (by simp [h1f])]

/-- Witness instantiating C8: registering a null config throws and leaves the
pristine state untouched. -/
theorem register_fails_fast_witness :
    (∃ msg, (register JsValue.null initState).1 = Except.error (JsError.typeError msg)) ∧
    (register JsValue.null initState).2 = initState :=
  register_fails_fast JsValue.null initState (Or.inl rfl)

/-- C10: evaluation of the stale-handle sequence — after `register(c1)` giving
handle `h1`, then `register(c2)`, calling `h1.unregister()` leaves the second
pipeline installed and attached but clears the module slot, so a subsequent
`unregister()` is a no-op: the second wrapper stays installed, its validator
stays attached, and the original `fetch` is never restored. -/
theorem stale_handle_disables_teardown :
    ((cleanupClosure 0 (runOps [LifeOp.registerOp cfgOne, LifeOp.registerOp cfgTwo])).fetch
        = FetchVal.wrapper 1)
  ∧ (((cleanupClosure 0 (runOps [LifeOp.registerOp cfgOne, LifeOp.registerOp cfgTwo])).itc 1).installed = true)
  ∧ (((cleanupClosure 0 (runOps [LifeOp.registerOp cfgOne, LifeOp.registerOp cfgTwo])).vld 1).interceptorRef = some 1)
  ∧ ((cleanupClosure 0 (runOps [LifeOp.registerOp cfgOne, LifeOp.registerOp cfgTwo])).currentCleanup = none)
  ∧ ((unregister (cleanupClosure 0 (runOps [LifeOp.registerOp cfgOne, LifeOp.registerOp cfgTwo]))).fetch
        = FetchVal.wrapper 1)
  ∧ (((unregister (cleanupClosure 0 (runOps [LifeOp.registerOp cfgOne, LifeOp.registerOp cfgTwo]))).itc 1).installed = true)
  ∧ (((unregister (cleanupClosure 0 (runOps [LifeOp.registerOp cfgOne, LifeOp.registerOp cfgTwo]))).vld 1).interceptorRef = some 1) := by
  exact ⟨rfl, rfl, rfl, rfl, rfl, rfl, rfl⟩

end ApiContract
